import Mathlib

/-!
Shallow embedding of the request-and-voting bot (`src/main.py`).

Timestamps are modelled as `Int` seconds since the epoch (the source uses
`time.time()`); message identifiers and reaction counts as `Nat`; the
Python exception paths as `Option`; and the on-disk state as an explicit
`Store` record with primary, backup and temporary file slots, each either
absent, holding well-formed JSON of a request list, or malformed.
-/

namespace Bot

/-- A pending request as held in the in-memory ledger (`new_request` dict
in `src/main.py`, lines 99-106). -/
structure Request where
  artist : String
  name : String
  link : String
  message_id : Nat
  created_at : Int
  requested_by : String
deriving DecidableEq

/-- A record as it sits in the JSON store: `created_at` may be absent
(legacy records), which `load_requests` backfills. -/
structure StoredReq where
  artist : String
  name : String
  link : String
  message_id : Nat
  created_at : Option Int
  requested_by : String
deriving DecidableEq

/-- Contents of one on-disk file: well-formed JSON of a record list, or
content that `json.load` rejects. -/
inductive FileData where
  | good (rs : List StoredReq)
  | malformed
deriving DecidableEq

/-- The on-disk state: `requests.json`, `requests.bak`, `requests.json.tmp`.
`none` models a missing file. -/
structure Store where
  primary : Option FileData
  backup : Option FileData
  tmp : Option FileData
deriving DecidableEq

/-- Serialisation of one in-memory request (what `json.dump` writes). -/
def encodeReq (r : Request) : StoredReq :=
  ⟨r.artist, r.name, r.link, r.message_id, some r.created_at, r.requested_by⟩

/-- Deserialisation of one stored record, backfilling a missing
`created_at` with the current time (`src/main.py` lines 37-39). -/
def decodeReq (now : Int) (s : StoredReq) : Request :=
  ⟨s.artist, s.name, s.link, s.message_id, s.created_at.getD now, s.requested_by⟩

/-- Reading one file: succeeds only when the file exists and parses
(`FileNotFoundError` and `json.JSONDecodeError` both fail). -/
def readFile (f : Option FileData) : Option (List StoredReq) :=
  match f with
  | some (FileData.good rs) => some rs
  | _ => none

/-- `load_requests` (`src/main.py` lines 32-43): try the primary file,
then the backup, else return the empty list. -/
def load_requests (now : Int) (st : Store) : List Request :=
  match readFile st.primary with
  | some rs => rs.map (decodeReq now)
  | none =>
    match readFile st.backup with
    | some rs => rs.map (decodeReq now)
    | none => []

/-- Step 1 of `save_requests`: `os.replace(REQUESTS_FILE, REQUESTS_BACKUP)`
when the primary exists (`src/main.py` lines 47-48). -/
def saveStep1 (st : Store) : Store :=
  if st.primary.isSome then { st with primary := none, backup := st.primary } else st

/-- Step 2 of `save_requests`: write the new content to the temporary
path (`src/main.py` lines 49-51). -/
def saveStep2 (rs : List Request) (st : Store) : Store :=
  { st with tmp := some (FileData.good (rs.map encodeReq)) }

/-- Step 3 of `save_requests`: `os.replace(temp_file, REQUESTS_FILE)`
(`src/main.py` line 52). -/
def saveStep3 (st : Store) : Store :=
  { st with primary := st.tmp, tmp := none }

/-- `save_requests` (`src/main.py` lines 45-54) run to completion. -/
def save_requests (rs : List Request) (st : Store) : Store :=
  saveStep3 (saveStep2 rs (saveStep1 st))

/-- A `save_requests` call interrupted after `k` of its three steps; any
`k ≥ 2` means everything but the final atomic rename completed. -/
def saveInterrupted (rs : List Request) (st : Store) (k : Nat) : Store :=
  match k with
  | 0 => st
  | 1 => saveStep1 st
  | _ + 2 => saveStep2 rs (saveStep1 st)

/-- One reaction entry on a fetched message: emoji and total count. -/
structure Reaction where
  emoji : String
  count : Nat
deriving DecidableEq

/-- One entry of `votes_count` (`src/main.py` lines 147-152). -/
structure VoteEntry where
  artist : String
  name : String
  link : String
  votes : Int
deriving DecidableEq

/-- The emoji the bot attaches and tallies. -/
def thumbsUp : String := "👍"

/-- The maturity window: `48*3600` seconds (`src/main.py` line 129). -/
def maturityWindow : Int := 48 * 3600

/-- The age filter of the sweeper: `current_time - r['created_at'] >= 48*3600`. -/
def eligible (now : Int) (r : Request) : Bool :=
  maturityWindow ≤ now - r.created_at

/-- `old_requests` (`src/main.py` line 129): the eligible subset of the
snapshot, in ledger order. -/
def sweepEligible (now : Int) (snap : List Request) : List Request :=
  snap.filter (eligible now)

/-- The per-request body of the fetch loop (`src/main.py` lines 142-156):
fetch the vote message by id (`none` models any raised exception), find
the thumbs-up reaction, and compute `votes = count - 1`. Returns `none`
when the fetch fails or no thumbs-up reaction is present. -/
def processOne (fetch : Nat → Option (List Reaction)) (r : Request) : Option VoteEntry :=
  match fetch r.message_id with
  | none => none
  | some rs =>
    match rs.find? (fun x => x.emoji == thumbsUp) with
    | none => none
    | some rc => some ⟨r.artist, r.name, r.link, (rc.count : Int) - 1⟩

/-- The `processed` list built by the fetch loop. -/
def sweepProcessed (fetch : Nat → Option (List Reaction)) (old : List Request) : List Request :=
  old.filter (fun r => (processOne fetch r).isSome)

/-- The `votes_count` list built by the fetch loop. -/
def sweepVotes (fetch : Nat → Option (List Reaction)) (old : List Request) : List VoteEntry :=
  old.filterMap (processOne fetch)

/-- Python `list.remove`: drop the first occurrence of `x`. -/
def removeFirst (x : Request) : List Request → List Request
  | [] => []
  | y :: ys => if y = x then ys else y :: removeFirst x ys

/-- The batch removal loop (`src/main.py` lines 160-162):
`for p in processed: if p in requests: requests.remove(p)`. -/
def removeBatch (processed : List Request) (cur : List Request) : List Request :=
  processed.foldl (fun acc p => if p ∈ acc then removeFirst p acc else acc) cur

/-- Stable descending insertion by vote count: the insertion step of a
stable sort equivalent to Python `sorted(key=votes, reverse=True)`. -/
def insertDesc (x : VoteEntry) : List VoteEntry → List VoteEntry
  | [] => [x]
  | y :: ys => if y.votes ≤ x.votes then x :: y :: ys else y :: insertDesc x ys

/-- Stable sort by vote count descending, modelling
`sorted(votes_count, key=lambda x: x['votes'], reverse=True)`
(`src/main.py` line 166): Python's sort is stable, and a stable
descending sort is exactly this insertion sort. -/
def sortDesc : List VoteEntry → List VoteEntry
  | [] => []
  | x :: xs => insertDesc x (sortDesc xs)

/-- `sorted(...)[:5]` (`src/main.py` line 166). -/
def topFive (l : List VoteEntry) : List VoteEntry :=
  (sortDesc l).take 5

/-- The message the sweeper sends to the admin channel. -/
inductive AdminMsg where
  | report (entries : List VoteEntry)
  | noVotes
deriving DecidableEq

/-- The admin-channel output of the sweep (`src/main.py` lines 158-172):
nothing when no request was processed; the top-five report when some
vote entries were collected; else the no-votes notice. -/
def sweepReport (processed : List Request) (votes : List VoteEntry) : Option AdminMsg :=
  if processed.isEmpty then none
  else if votes.isEmpty then some AdminMsg.noVotes
  else some (AdminMsg.report (topFive votes))

/-- The observable result of one sweep: the ledger and store afterwards,
and the admin-channel message if any. -/
structure SweepResult where
  ledger : List Request
  store : Store
  adminMsg : Option AdminMsg
deriving DecidableEq

/-- `calculate_votes` (`src/main.py` lines 125-174) as one sequential
sweep over the ledger. `fetch` is the messaging collaborator
(`request_channel.fetch_message`); `channelsOk` models whether both the
admin and request channels resolve (lines 133-137). The early returns
(no eligible request, missing channel) leave everything unchanged; the
removal block runs only when something was processed. -/
def calculate_votes (fetch : Nat → Option (List Reaction)) (channelsOk : Bool)
    (now : Int) (ledger : List Request) (st : Store) : SweepResult :=
  let old := sweepEligible now ledger
  if old.isEmpty then ⟨ledger, st, none⟩
  else if !channelsOk then ⟨ledger, st, none⟩
  else
    let votes := sweepVotes fetch old
    let processed := sweepProcessed fetch old
    if processed.isEmpty then ⟨ledger, st, sweepReport processed votes⟩
    else
      let ledger2 := removeBatch processed ledger
      ⟨ledger2, save_requests ledger2 st, sweepReport processed votes⟩

/-- The configured artist-to-role table (`src/main.py` lines 59-64). -/
def artist_roles : List (String × Nat) :=
  [("carti", 1360191765436432497),
   ("ken carson", 1359937447370424440),
   ("lucki", 1360191867119075399),
   ("other", 1360192004100980826)]

/-- Python `dict.get` over the role table (no default). -/
def lookupRole (roles : List (String × Nat)) (key : String) : Option Nat :=
  (roles.find? (fun kv => kv.1 == key)).map (fun kv => kv.2)

/-- Everything the `/request` handler emits: messages posted to the
request channel, reactions attached, the resulting ledger and store, and
the ephemeral reply to the submitter. -/
structure SubmitOutcome where
  posts : List String
  reactions : List String
  ledger : List Request
  store : Store
  reply : String
deriving DecidableEq

/-- The `/request` command handler (`src/main.py` lines 84-112).
`roles` is the artist-role table consulted at lines 85-86 (a missing
`"other"` key would raise `KeyError`, modelled by `none`); `channelOk`
is whether `bot.get_channel(REQUEST_CHANNEL_ID)` resolves; `msgId` is
the id the platform assigns to the posted message; `mention` and
`userStr` model `interaction.user.mention` and `str(interaction.user)`. -/
def request (roles : List (String × Nat)) (channelOk : Bool) (msgId : Nat) (now : Int)
    (artist nm link mention userStr : String) (ledger : List Request) (st : Store) :
    Option SubmitOutcome :=
  match lookupRole roles "other" with
  | none => none
  | some otherRole =>
    let _roleId : Nat := (lookupRole roles artist.toLower).getD otherRole
    if channelOk then
      let newReq : Request := ⟨artist, nm, link, msgId, now, userStr⟩
      let ledger2 := ledger ++ [newReq]
      some { posts := ["**" ++ nm ++ "** (" ++ artist ++ ")\n" ++ link ++
                       "\nVote by reacting 👍\nRequested by " ++ mention],
             reactions := [thumbsUp],
             ledger := ledger2,
             store := save_requests ledger2 st,
             reply := "Request added: " ++ nm ++ " (" ++ artist ++ ")" }
    else
      some { posts := [], reactions := [], ledger := ledger, store := st,
             reply := "Error: Could not find requests channel." }

/-! ### Lemmas about `removeFirst` and `removeBatch` -/

theorem removeFirst_sublist (x : Request) (l : List Request) :
    List.Sublist (removeFirst x l) l := by
  induction l with
  | nil => simp [removeFirst]
  | cons y ys ih =>
    by_cases hy : y = x
    · simp only [removeFirst, if_pos hy]
      exact List.sublist_cons_self y ys
    · simp only [removeFirst, if_neg hy]
      exact ih.cons₂ y

theorem mem_removeFirst_of_ne {r x : Request} (h : r ≠ x) (l : List Request) :
    r ∈ removeFirst x l ↔ r ∈ l := by
  induction l with
  | nil => simp [removeFirst]
  | cons y ys ih =>
    by_cases hy : y = x
    · subst hy
      simp [removeFirst, List.mem_cons, h]
    · simp [removeFirst, hy, List.mem_cons, ih]

theorem not_mem_removeFirst_self {l : List Request} (hnd : l.Nodup) (x : Request) :
    x ∉ removeFirst x l := by
  induction l with
  | nil => simp [removeFirst]
  | cons y ys ih =>
    rw [List.nodup_cons] at hnd
    by_cases hy : y = x
    · subst hy
      simpa [removeFirst] using hnd.1
    · simp only [removeFirst, if_neg hy, List.mem_cons]
      push_neg
      exact ⟨fun hxy => hy hxy.symm, ih hnd.2⟩

theorem removeFirst_of_not_mem {x : Request} {l : List Request} (h : x ∉ l) :
    removeFirst x l = l := by
  induction l with
  | nil => rfl
  | cons y ys ih =>
    rw [List.mem_cons, not_or] at h
    have hyx : ¬y = x := fun hy => h.1 hy.symm
    simp only [removeFirst, if_neg hyx]
    rw [ih h.2]

theorem nodup_removeFirst {l : List Request} (hnd : l.Nodup) (x : Request) :
    (removeFirst x l).Nodup :=
  hnd.sublist (removeFirst_sublist x l)

theorem removeBatch_cons (p : Request) (P L : List Request) :
    removeBatch (p :: P) L = removeBatch P (if p ∈ L then removeFirst p L else L) := rfl

theorem removeBatch_sublist (P L : List Request) : List.Sublist (removeBatch P L) L := by
  induction P generalizing L with
  | nil => exact List.Sublist.refl L
  | cons p P ih =>
    rw [removeBatch_cons]
    refine (ih _).trans ?_
    by_cases hp : p ∈ L
    · rw [if_pos hp]; exact removeFirst_sublist p L
    · rw [if_neg hp]

theorem not_mem_removeBatch_of_not_mem {r : Request} {L : List Request} (h : r ∉ L)
    (P : List Request) : r ∉ removeBatch P L :=
  fun hmem => h ((removeBatch_sublist P L).subset hmem)

theorem nodup_removeBatch {L : List Request} (hnd : L.Nodup) (P : List Request) :
    (removeBatch P L).Nodup :=
  hnd.sublist (removeBatch_sublist P L)

theorem mem_removeBatch_of_not_mem_proc {r : Request} {P L : List Request}
    (hm : r ∈ L) (hp : r ∉ P) : r ∈ removeBatch P L := by
  induction P generalizing L with
  | nil => exact hm
  | cons p P ih =>
    rw [List.mem_cons, not_or] at hp
    rw [removeBatch_cons]
    refine ih ?_ hp.2
    by_cases hpl : p ∈ L
    · rw [if_pos hpl]
      exact (mem_removeFirst_of_ne hp.1 L).mpr hm
    · rwa [if_neg hpl]

theorem mem_removeBatch_iff {L : List Request} (hnd : L.Nodup) (P : List Request)
    (r : Request) : r ∈ removeBatch P L ↔ r ∈ L ∧ r ∉ P := by
  induction P generalizing L with
  | nil => simp [removeBatch]
  | cons p P ih =>
    rw [removeBatch_cons]
    have hnd2 : (if p ∈ L then removeFirst p L else L).Nodup := by
      by_cases hpl : p ∈ L
      · rw [if_pos hpl]; exact nodup_removeFirst hnd p
      · rwa [if_neg hpl]
    have hmem2 : r ∈ (if p ∈ L then removeFirst p L else L) ↔ r ∈ L ∧ r ≠ p := by
      by_cases hpl : p ∈ L
      · rw [if_pos hpl]
        by_cases hr : r = p
        · subst hr
          simp [not_mem_removeFirst_self hnd r, hpl]
        · simp [mem_removeFirst_of_ne hr L, hr]
      · rw [if_neg hpl]
        constructor
        · intro hr
          exact ⟨hr, fun hrp => hpl (hrp ▸ hr)⟩
        · exact fun hr => hr.1
    rw [ih hnd2, hmem2, List.mem_cons]
    constructor
    · rintro ⟨⟨h1, h2⟩, h3⟩
      exact ⟨h1, by push_neg; exact ⟨h2, h3⟩⟩
    · rintro ⟨h1, h2⟩
      push_neg at h2
      exact ⟨⟨h1, h2.1⟩, h2.2⟩

theorem not_mem_removeBatch_of_mem_proc {r : Request} {L : List Request} (hnd : L.Nodup)
    {P : List Request} (hp : r ∈ P) : r ∉ removeBatch P L := by
  intro hmem
  exact ((mem_removeBatch_iff hnd P r).mp hmem).2 hp

theorem removeBatch_of_absent {P L : List Request} (h : ∀ p ∈ P, p ∉ L) :
    removeBatch P L = L := by
  induction P with
  | nil => rfl
  | cons p P ih =>
    rw [removeBatch_cons, if_neg (h p (List.mem_cons_self p P))]
    exact ih fun q hq => h q (List.mem_cons_of_mem p hq)

/-! ### Lemmas about the stable descending sort -/

theorem perm_insertDesc (x : VoteEntry) (l : List VoteEntry) :
    List.Perm (insertDesc x l) (x :: l) := by
  induction l with
  | nil => exact List.Perm.refl [x]
  | cons y ys ih =>
    by_cases h : y.votes ≤ x.votes
    · rw [insertDesc, if_pos h]
    · rw [insertDesc, if_neg h]
      exact (ih.cons y).trans (List.Perm.swap x y ys)

theorem perm_sortDesc (l : List VoteEntry) : List.Perm (sortDesc l) l := by
  induction l with
  | nil => exact List.Perm.refl []
  | cons x xs ih => exact (perm_insertDesc x (sortDesc xs)).trans (ih.cons x)

theorem sorted_insertDesc {l : List VoteEntry}
    (h : l.Sorted fun a b => b.votes ≤ a.votes) (x : VoteEntry) :
    (insertDesc x l).Sorted fun a b => b.votes ≤ a.votes := by
  induction l with
  | nil => simp [insertDesc]
  | cons y ys ih =>
    rw [List.sorted_cons] at h
    by_cases hxy : y.votes ≤ x.votes
    · rw [insertDesc, if_pos hxy, List.sorted_cons]
      refine ⟨?_, List.sorted_cons.mpr h⟩
      intro b hb
      rcases List.mem_cons.mp hb with hb | hb
      · exact hb ▸ hxy
      · exact le_trans (h.1 b hb) hxy
    · rw [insertDesc, if_neg hxy, List.sorted_cons]
      refine ⟨?_, ih h.2⟩
      intro b hb
      rcases List.mem_cons.mp ((perm_insertDesc x ys).mem_iff.mp hb) with hb | hb
      · exact hb ▸ le_of_lt (lt_of_not_le hxy)
      · exact h.1 b hb

theorem sorted_sortDesc (l : List VoteEntry) :
    (sortDesc l).Sorted fun a b => b.votes ≤ a.votes := by
  induction l with
  | nil => simp [sortDesc]
  | cons x xs ih => exact sorted_insertDesc ih x

theorem filter_insertDesc (x : VoteEntry) (l : List VoteEntry) (k : Int) :
    (insertDesc x l).filter (fun e => decide (e.votes = k)) =
      if x.votes = k then x :: l.filter (fun e => decide (e.votes = k))
      else l.filter (fun e => decide (e.votes = k)) := by
  induction l with
  | nil =>
    by_cases hx : x.votes = k
    · simp [insertDesc, List.filter, hx]
    · simp [insertDesc, List.filter, hx]
  | cons y ys ih =>
    by_cases hyx : y.votes ≤ x.votes
    · rw [insertDesc, if_pos hyx]
      by_cases hx : x.votes = k
      · simp [List.filter_cons, hx]
      · simp [List.filter_cons, hx]
    · rw [insertDesc, if_neg hyx]
      by_cases hyk : y.votes = k
      · have hx : ¬x.votes = k := fun hxk => hyx (le_of_eq (hyk.trans hxk.symm))
        simp [List.filter_cons, hyk, hx, ih]
      · by_cases hx : x.votes = k
        · simp [List.filter_cons, hyk, hx, ih]
        · simp [List.filter_cons, hyk, hx, ih]

theorem filter_sortDesc (l : List VoteEntry) (k : Int) :
    (sortDesc l).filter (fun e => decide (e.votes = k)) =
      l.filter (fun e => decide (e.votes = k)) := by
  induction l with
  | nil => rfl
  | cons x xs ih =>
    rw [sortDesc, filter_insertDesc]
    by_cases hx : x.votes = k
    · simp [List.filter, hx, ih]
    · simp [List.filter, hx, ih]

/-! ### Unfolding helpers for `calculate_votes` -/

theorem calcVotes_ledger (fetch : Nat → Option (List Reaction)) (now : Int)
    (ledger : List Request) (st : Store)
    (h : (sweepEligible now ledger).isEmpty = false) :
    (calculate_votes fetch true now ledger st).ledger =
      if (sweepProcessed fetch (sweepEligible now ledger)).isEmpty then ledger
      else removeBatch (sweepProcessed fetch (sweepEligible now ledger)) ledger := by
  rw [calculate_votes]
  simp only [h, Bool.false_eq_true, if_false, Bool.not_true]
  by_cases hp : (sweepProcessed fetch (sweepEligible now ledger)).isEmpty
  · simp [hp]
  · simp [hp]

theorem calcVotes_adminMsg (fetch : Nat → Option (List Reaction)) (now : Int)
    (ledger : List Request) (st : Store)
    (h : (sweepEligible now ledger).isEmpty = false) :
    (calculate_votes fetch true now ledger st).adminMsg =
      sweepReport (sweepProcessed fetch (sweepEligible now ledger))
        (sweepVotes fetch (sweepEligible now ledger)) := by
  rw [calculate_votes]
  simp only [h, Bool.false_eq_true, if_false, Bool.not_true]
  by_cases hp : (sweepProcessed fetch (sweepEligible now ledger)).isEmpty
  · simp [hp, sweepReport]
  · simp [hp]

/-- Any list with a member is not empty. -/
theorem isEmpty_false_of_mem {α : Type} {r : α} {l : List α} (h : r ∈ l) :
    l.isEmpty = false := by
  cases l with
  | nil => cases h
  | cons a as => rfl

/-- C2: loading after saving returns the saved sequence of requests
unchanged, field for field and order preserving. -/
theorem C2_load_save_roundtrip (R : List Request) (st : Store) (now : Int) :
    load_requests now (save_requests R st) = R := by
  have hprim : (save_requests R st).primary = some (FileData.good (R.map encodeReq)) := by
    rw [save_requests, saveStep3, saveStep2, saveStep1]
  simp only [load_requests, hprim, readFile, List.map_map]
  have hcomp : decodeReq now ∘ encodeReq = id := funext fun r => rfl
  rw [hcomp, List.map_id]

/-- C5: a `save_requests` interrupted after any of its steps short of the
final atomic rename (including after the primary was renamed to backup)
leaves `load_requests` returning exactly what it returned before the
save, provided the primary held no malformed content beforehand — a
condition every store state written by the code itself satisfies, as the
last two conjuncts show. The Python `try/except` that makes a failed
save non-fatal is modelled by `saveInterrupted` being a total function
on the store that leaves the in-memory ledger untouched. -/
theorem C5_crash_safe_save (R : List Request) (st : Store) (now : Int) (k : Nat)
    (hp : st.primary ≠ some FileData.malformed) :
    load_requests now (saveInterrupted R st k) = load_requests now st ∧
    (saveInterrupted R st k).primary ≠ some FileData.malformed ∧
    (save_requests R st).primary ≠ some FileData.malformed := by
  rcases st with ⟨p, b, t⟩
  rcases p with _ | fd
  · rcases k with _ | _ | k <;>
      simp [saveInterrupted, saveStep1, saveStep2, save_requests, saveStep3,
        load_requests, readFile]
  · rcases fd with rs | _
    · rcases k with _ | _ | k <;>
        simp [saveInterrupted, saveStep1, saveStep2, save_requests, saveStep3,
          load_requests, readFile]
    · exact absurd rfl hp

/-- C5 witness: interrupting a save right after the primary was renamed
to backup still lets `load_requests` recover the previous generation. -/
theorem C5_crash_safe_save_witness :
    load_requests 0 (saveInterrupted []
        ⟨some (FileData.good []), none, none⟩ 1) =
      load_requests 0 ⟨some (FileData.good []), none, none⟩ ∧
    (saveInterrupted [] ⟨some (FileData.good []), none, none⟩ 1).primary ≠
      some FileData.malformed ∧
    (save_requests [] ⟨some (FileData.good []), none, none⟩).primary ≠
      some FileData.malformed :=
  C5_crash_safe_save [] ⟨some (FileData.good []), none, none⟩ 0 1 (by decide)

/-- C8: `load_requests` prefers the primary file, falls back to the
backup on a missing or malformed primary, returns the empty list when
both fail, and backfills a missing `created_at` with the current time
while keeping stored values. -/
theorem C8_load_fallback_and_backfill (st : Store) (now : Int) :
    (∀ rs, st.primary = some (FileData.good rs) →
      load_requests now st = rs.map (decodeReq now)) ∧
    (∀ rs, (st.primary = none ∨ st.primary = some FileData.malformed) →
      st.backup = some (FileData.good rs) →
      load_requests now st = rs.map (decodeReq now)) ∧
    ((st.primary = none ∨ st.primary = some FileData.malformed) →
      (st.backup = none ∨ st.backup = some FileData.malformed) →
      load_requests now st = []) ∧
    (∀ s : StoredReq, s.created_at = none → (decodeReq now s).created_at = now) ∧
    (∀ s : StoredReq, ∀ c : Int, s.created_at = some c → (decodeReq now s).created_at = c) := by
  refine ⟨?_, ?_, ?_, ?_, ?_⟩
  · intro rs h
    simp [load_requests, h, readFile]
  · intro rs hpr hb
    rcases hpr with hpr | hpr <;> simp [load_requests, hpr, hb, readFile]
  · intro hpr hb
    rcases hpr with hpr | hpr <;> rcases hb with hb | hb <;>
      simp [load_requests, hpr, hb, readFile]
  · intro s h
    simp [decodeReq, h]
  · intro s c h
    simp [decodeReq, h]

/-- C8 witness: a malformed primary falls back to the backup, and a
record with no `created_at` decodes with the current time. -/
theorem C8_load_fallback_witness :
    load_requests 5 ⟨some FileData.malformed,
        some (FileData.good [⟨"a", "n", "l", 1, none, "u"⟩]), none⟩ =
      List.map (decodeReq 5) [⟨"a", "n", "l", 1, none, "u"⟩] ∧
    (decodeReq 5 ⟨"a", "n", "l", 1, none, "u"⟩).created_at = 5 :=
  ⟨(C8_load_fallback_and_backfill
      ⟨some FileData.malformed, some (FileData.good [⟨"a", "n", "l", 1, none, "u"⟩]), none⟩
      5).2.1 [⟨"a", "n", "l", 1, none, "u"⟩] (Or.inr rfl) rfl,
   (C8_load_fallback_and_backfill ⟨none, none, none⟩ 5).2.2.2.1
      ⟨"a", "n", "l", 1, none, "u"⟩ rfl⟩

/-- C3: a request enters the sweep's eligible set exactly when its age
`now - created_at` is at least the 48-hour maturity window; age exactly
the window is eligible, one second less is not. -/
theorem C3_maturity_boundary (now : Int) (l : List Request) (r : Request) :
    (r ∈ sweepEligible now l ↔ r ∈ l ∧ maturityWindow ≤ now - r.created_at) ∧
    (r.created_at = now - maturityWindow → eligible now r = true) ∧
    (r.created_at = now - (maturityWindow - 1) → eligible now r = false) := by
  refine ⟨?_, ?_, ?_⟩
  · simp [sweepEligible, List.mem_filter, eligible]
  · intro h
    simp only [eligible, h, decide_eq_true_eq]
    omega
  · intro h
    simp only [eligible, h, decide_eq_false_iff_not]
    omega

/-- C3 witness: age exactly 48 hours is eligible; one second younger is
not. -/
theorem C3_maturity_boundary_witness :
    eligible 172800 ⟨"a", "n", "l", 1, 0, "u"⟩ = true ∧
    eligible 172800 ⟨"a", "n", "l", 1, 1, "u"⟩ = false :=
  ⟨(C3_maturity_boundary 172800 [] ⟨"a", "n", "l", 1, 0, "u"⟩).2.1 (by decide),
   (C3_maturity_boundary 172800 [] ⟨"a", "n", "l", 1, 1, "u"⟩).2.2 (by decide)⟩

/-- C1 counterexample: a vote message that is fetched successfully but
carries no thumbs-up reaction is neither processed nor removed — the
request stays in the ledger, refuting the claim that every successfully
fetched eligible request is processed and removed. -/
theorem C1_counterexample :
    ((fun _ : Nat => some ([] : List Reaction)) 1).isSome = true ∧
    (⟨"a", "n", "l", 1, 0, "u"⟩ : Request) ∈
      sweepEligible 172800 [⟨"a", "n", "l", 1, 0, "u"⟩] ∧
    (⟨"a", "n", "l", 1, 0, "u"⟩ : Request) ∉
      sweepProcessed (fun _ => some []) (sweepEligible 172800 [⟨"a", "n", "l", 1, 0, "u"⟩]) ∧
    (calculate_votes (fun _ => some []) true 172800 [⟨"a", "n", "l", 1, 0, "u"⟩]
        ⟨none, none, none⟩).ledger = [⟨"a", "n", "l", 1, 0, "u"⟩] := by
  refine ⟨rfl, ?_, ?_, ?_⟩ <;> decide

/-- C1 (amended): for every eligible ledger request whose vote message
is successfully fetched and whose reaction list contains the thumbs-up
reaction, the sweeper marks it processed with `votes = count - 1` and
the sweep's batch removal removes it from the ledger. -/
theorem C1_fetched_thumb_processed_removed (fetch : Nat → Option (List Reaction))
    (now : Int) (ledger : List Request) (st : Store) (r : Request)
    (rs : List Reaction) (rc : Reaction)
    (hnd : ledger.Nodup) (hmem : r ∈ ledger) (hel : eligible now r = true)
    (hf : fetch r.message_id = some rs)
    (hth : rs.find? (fun x => x.emoji == thumbsUp) = some rc) :
    r ∈ sweepProcessed fetch (sweepEligible now ledger) ∧
    (⟨r.artist, r.name, r.link, (rc.count : Int) - 1⟩ : VoteEntry) ∈
      sweepVotes fetch (sweepEligible now ledger) ∧
    r ∉ (calculate_votes fetch true now ledger st).ledger := by
  have hpo : processOne fetch r = some ⟨r.artist, r.name, r.link, (rc.count : Int) - 1⟩ := by
    simp only [processOne, hf, hth]
  have helig : r ∈ sweepEligible now ledger := by
    rw [sweepEligible, List.mem_filter]
    exact ⟨hmem, hel⟩
  have hproc : r ∈ sweepProcessed fetch (sweepEligible now ledger) := by
    rw [sweepProcessed, List.mem_filter]
    refine ⟨helig, ?_⟩
    rw [hpo]
    rfl
  refine ⟨hproc, ?_, ?_⟩
  · rw [sweepVotes, List.mem_filterMap]
    exact ⟨r, helig, hpo⟩
  · rw [calcVotes_ledger fetch now ledger st (isEmpty_false_of_mem helig)]
    have hpne : ¬(sweepProcessed fetch (sweepEligible now ledger)).isEmpty = true := by
      rw [isEmpty_false_of_mem hproc]
      exact Bool.false_ne_true
    rw [if_neg hpne]
    exact not_mem_removeBatch_of_mem_proc hnd hproc

/-- C1 witness: with a fetched count of 1 (only the bot's own reaction)
the computed vote count is 0 and the request is processed and removed. -/
theorem C1_fetched_thumb_witness :
    (⟨"a", "n", "l", 1, 0, "u"⟩ : Request) ∈
      sweepProcessed (fun _ => some [⟨"👍", 1⟩])
        (sweepEligible 172800 [⟨"a", "n", "l", 1, 0, "u"⟩]) ∧
    (⟨"a", "n", "l", ((1 : Nat) : Int) - 1⟩ : VoteEntry) ∈
      sweepVotes (fun _ => some [⟨"👍", 1⟩])
        (sweepEligible 172800 [⟨"a", "n", "l", 1, 0, "u"⟩]) ∧
    (⟨"a", "n", "l", 1, 0, "u"⟩ : Request) ∉
      (calculate_votes (fun _ => some [⟨"👍", 1⟩]) true 172800
        [⟨"a", "n", "l", 1, 0, "u"⟩] ⟨none, none, none⟩).ledger :=
  C1_fetched_thumb_processed_removed (fun _ => some [⟨"👍", 1⟩]) 172800
    [⟨"a", "n", "l", 1, 0, "u"⟩] ⟨none, none, none⟩ ⟨"a", "n", "l", 1, 0, "u"⟩
    [⟨"👍", 1⟩] ⟨"👍", 1⟩ (by decide) (by decide) (by decide) rfl (by decide)

/-- C7: an eligible request whose message fetch fails stays in the
ledger through the sweep and, at any later time, still passes the age
filter, so the next sweep picks it up again. -/
theorem C7_failed_fetch_retry (fetch : Nat → Option (List Reaction)) (now now2 : Int)
    (ledger : List Request) (st : Store) (r : Request)
    (hmem : r ∈ ledger) (hel : eligible now r = true)
    (hf : fetch r.message_id = none) (hle : now ≤ now2) :
    r ∈ (calculate_votes fetch true now ledger st).ledger ∧
    eligible now2 r = true ∧
    r ∈ sweepEligible now2 (calculate_votes fetch true now ledger st).ledger := by
  have hpo : processOne fetch r = none := by
    simp only [processOne, hf]
  have hnp : r ∉ sweepProcessed fetch (sweepEligible now ledger) := by
    rw [sweepProcessed, List.mem_filter]
    rintro ⟨h1, h2⟩
    rw [hpo] at h2
    cases h2
  have helig : r ∈ sweepEligible now ledger := by
    rw [sweepEligible, List.mem_filter]
    exact ⟨hmem, hel⟩
  have hmem2 : r ∈ (calculate_votes fetch true now ledger st).ledger := by
    rw [calcVotes_ledger fetch now ledger st (isEmpty_false_of_mem helig)]
    by_cases hp : (sweepProcessed fetch (sweepEligible now ledger)).isEmpty
    · rw [if_pos hp]
      exact hmem
    · rw [if_neg hp]
      exact mem_removeBatch_of_not_mem_proc hmem hnp
  have hel2 : eligible now2 r = true := by
    simp only [eligible, decide_eq_true_eq] at hel ⊢
    omega
  refine ⟨hmem2, hel2, ?_⟩
  rw [sweepEligible, List.mem_filter]
  exact ⟨hmem2, hel2⟩

/-- C7 witness: a request whose fetch fails survives the sweep and is
still eligible one sweep period later. -/
theorem C7_failed_fetch_retry_witness :
    (⟨"a", "n", "l", 1, 0, "u"⟩ : Request) ∈
      (calculate_votes (fun _ => none) true 172800 [⟨"a", "n", "l", 1, 0, "u"⟩]
        ⟨none, none, none⟩).ledger ∧
    eligible 173700 ⟨"a", "n", "l", 1, 0, "u"⟩ = true ∧
    (⟨"a", "n", "l", 1, 0, "u"⟩ : Request) ∈
      sweepEligible 173700 (calculate_votes (fun _ => none) true 172800
        [⟨"a", "n", "l", 1, 0, "u"⟩] ⟨none, none, none⟩).ledger :=
  C7_failed_fetch_retry (fun _ => none) 172800 173700 [⟨"a", "n", "l", 1, 0, "u"⟩]
    ⟨none, none, none⟩ ⟨"a", "n", "l", 1, 0, "u"⟩
    (by decide) (by decide) rfl (by decide)

/-- C9 counterexample: a request already removed from the (now empty)
ledger but still present in a stale snapshot is processed and tallied
again by a sweep over that snapshot, refuting "never processed again
even if it reappears in a stale snapshot". Only the removal itself is
protected. -/
theorem C9_counterexample :
    (⟨"a", "n", "l", 1, 0, "u"⟩ : Request) ∉ ([] : List Request) ∧
    (⟨"a", "n", "l", 1, 0, "u"⟩ : Request) ∈
      sweepProcessed (fun _ => some [⟨"👍", 3⟩])
        (sweepEligible 172800 [⟨"a", "n", "l", 1, 0, "u"⟩]) ∧
    sweepVotes (fun _ => some [⟨"👍", 3⟩])
        (sweepEligible 172800 [⟨"a", "n", "l", 1, 0, "u"⟩]) =
      [⟨"a", "n", "l", 2⟩] := by
  refine ⟨?_, ?_, ?_⟩ <;> decide

/-- C9 (amended): the batch removal removes a request exactly once and
only if it was processed (hence only after a successful tally), removal
of entries no longer present leaves the ledger unchanged, an entry
absent from the ledger is never removed again, and no duplicates are
created — though a stale snapshot can still cause an already-removed
request to be tallied and reported again. -/
theorem C9_removal_discipline (fetch : Nat → Option (List Reaction)) (now : Int)
    (snap cur P : List Request) (r : Request) (hnd : cur.Nodup) :
    (r ∈ removeBatch (sweepProcessed fetch (sweepEligible now snap)) cur ↔
      r ∈ cur ∧ r ∉ sweepProcessed fetch (sweepEligible now snap)) ∧
    (r ∈ sweepProcessed fetch (sweepEligible now snap) →
      (processOne fetch r).isSome = true) ∧
    ((∀ p ∈ P, p ∉ cur) → removeBatch P cur = cur) ∧
    (r ∉ cur → r ∉ removeBatch P cur) ∧
    (removeBatch P cur).Nodup := by
  refine ⟨mem_removeBatch_iff hnd _ r, ?_, removeBatch_of_absent,
    fun h => not_mem_removeBatch_of_not_mem h P, nodup_removeBatch hnd P⟩
  intro h
  rw [sweepProcessed, List.mem_filter] at h
  exact h.2

/-- C9 witness: removal behaviour at a concrete ledger and snapshot. -/
theorem C9_removal_discipline_witness :
    ((⟨"a", "n", "l", 1, 0, "u"⟩ : Request) ∈
      removeBatch (sweepProcessed (fun _ => some [⟨"👍", 2⟩])
        (sweepEligible 172800 [⟨"a", "n", "l", 1, 0, "u"⟩])) [⟨"a", "n", "l", 1, 0, "u"⟩] ↔
      (⟨"a", "n", "l", 1, 0, "u"⟩ : Request) ∈ [(⟨"a", "n", "l", 1, 0, "u"⟩ : Request)] ∧
      (⟨"a", "n", "l", 1, 0, "u"⟩ : Request) ∉
        sweepProcessed (fun _ => some [⟨"👍", 2⟩])
          (sweepEligible 172800 [⟨"a", "n", "l", 1, 0, "u"⟩])) ∧
    ((⟨"a", "n", "l", 1, 0, "u"⟩ : Request) ∈
      sweepProcessed (fun _ => some [⟨"👍", 2⟩])
        (sweepEligible 172800 [⟨"a", "n", "l", 1, 0, "u"⟩]) →
      (processOne (fun _ => some [⟨"👍", 2⟩]) ⟨"a", "n", "l", 1, 0, "u"⟩).isSome = true) ∧
    ((∀ p ∈ [(⟨"b", "m", "k", 2, 0, "v"⟩ : Request)],
        p ∉ [(⟨"a", "n", "l", 1, 0, "u"⟩ : Request)]) →
      removeBatch [⟨"b", "m", "k", 2, 0, "v"⟩] [⟨"a", "n", "l", 1, 0, "u"⟩] =
        [⟨"a", "n", "l", 1, 0, "u"⟩]) ∧
    ((⟨"a", "n", "l", 1, 0, "u"⟩ : Request) ∉ [(⟨"a", "n", "l", 1, 0, "u"⟩ : Request)] →
      (⟨"a", "n", "l", 1, 0, "u"⟩ : Request) ∉
        removeBatch [⟨"b", "m", "k", 2, 0, "v"⟩] [⟨"a", "n", "l", 1, 0, "u"⟩]) ∧
    (removeBatch [⟨"b", "m", "k", 2, 0, "v"⟩] [(⟨"a", "n", "l", 1, 0, "u"⟩ : Request)]).Nodup :=
  C9_removal_discipline (fun _ => some [⟨"👍", 2⟩]) 172800
    [⟨"a", "n", "l", 1, 0, "u"⟩] [⟨"a", "n", "l", 1, 0, "u"⟩]
    [⟨"b", "m", "k", 2, 0, "v"⟩] ⟨"a", "n", "l", 1, 0, "u"⟩ (by decide)

/-- C4: when at least one request was processed with a resolvable tally,
the sweep's admin message is the top-five of the stable descending sort
of the collected vote entries; the sort is a permutation, is sorted by
votes descending, and preserves the relative order of equal-vote entries
(stability), and on the spec's example it yields B, C, A, D. -/
theorem C4_leaderboard (fetch : Nat → Option (List Reaction)) (now : Int)
    (ledger : List Request) (st : Store)
    (hv : sweepVotes fetch (sweepEligible now ledger) ≠ []) :
    (calculate_votes fetch true now ledger st).adminMsg =
      some (AdminMsg.report (topFive (sweepVotes fetch (sweepEligible now ledger)))) ∧
    (∀ l : List VoteEntry, List.Perm (sortDesc l) l) ∧
    (∀ l : List VoteEntry, (sortDesc l).Sorted fun a b => b.votes ≤ a.votes) ∧
    (∀ (l : List VoteEntry) (k : Int),
      (sortDesc l).filter (fun e => decide (e.votes = k)) =
        l.filter (fun e => decide (e.votes = k))) ∧
    sortDesc [⟨"", "A", "", 3⟩, ⟨"", "B", "", 5⟩, ⟨"", "C", "", 5⟩, ⟨"", "D", "", 1⟩] =
      [⟨"", "B", "", 5⟩, ⟨"", "C", "", 5⟩, ⟨"", "A", "", 3⟩, ⟨"", "D", "", 1⟩] := by
  refine ⟨?_, perm_sortDesc, sorted_sortDesc, filter_sortDesc, by decide⟩
  obtain ⟨v, hv2⟩ := List.exists_mem_of_ne_nil _ hv
  obtain ⟨rq, hrq, hpo⟩ := List.mem_filterMap.mp hv2
  have hproc : rq ∈ sweepProcessed fetch (sweepEligible now ledger) := by
    rw [sweepProcessed, List.mem_filter]
    refine ⟨hrq, ?_⟩
    rw [hpo]
    rfl
  rw [calcVotes_adminMsg fetch now ledger st (isEmpty_false_of_mem hrq), sweepReport,
    isEmpty_false_of_mem hproc, isEmpty_false_of_mem hv2]
  rfl

/-- C4 witness: four requests whose fetched counts are 4, 6, 6, 2 give
votes 3, 5, 5, 1, and the emitted report ranks them B, C, A, D. -/
theorem C4_leaderboard_witness :
    (calculate_votes
        (fun mid => some [⟨"👍", if mid = 1 then 4 else if mid = 2 then 6
          else if mid = 3 then 6 else 2⟩]) true 172800
        [⟨"", "A", "", 1, 0, "u"⟩, ⟨"", "B", "", 2, 0, "u"⟩,
         ⟨"", "C", "", 3, 0, "u"⟩, ⟨"", "D", "", 4, 0, "u"⟩]
        ⟨none, none, none⟩).adminMsg =
      some (AdminMsg.report (topFive (sweepVotes
        (fun mid => some [⟨"👍", if mid = 1 then 4 else if mid = 2 then 6
          else if mid = 3 then 6 else 2⟩])
        (sweepEligible 172800
          [⟨"", "A", "", 1, 0, "u"⟩, ⟨"", "B", "", 2, 0, "u"⟩,
           ⟨"", "C", "", 3, 0, "u"⟩, ⟨"", "D", "", 4, 0, "u"⟩])))) ∧
    sortDesc [⟨"", "A", "", 3⟩, ⟨"", "B", "", 5⟩, ⟨"", "C", "", 5⟩, ⟨"", "D", "", 1⟩] =
      [⟨"", "B", "", 5⟩, ⟨"", "C", "", 5⟩, ⟨"", "A", "", 3⟩, ⟨"", "D", "", 1⟩] :=
  ⟨(C4_leaderboard
      (fun mid => some [⟨"👍", if mid = 1 then 4 else if mid = 2 then 6
        else if mid = 3 then 6 else 2⟩]) 172800
      [⟨"", "A", "", 1, 0, "u"⟩, ⟨"", "B", "", 2, 0, "u"⟩,
       ⟨"", "C", "", 3, 0, "u"⟩, ⟨"", "D", "", 4, 0, "u"⟩]
      ⟨none, none, none⟩ (by decide)).1,
   (C4_leaderboard
      (fun mid => some [⟨"👍", if mid = 1 then 4 else if mid = 2 then 6
        else if mid = 3 then 6 else 2⟩]) 172800
      [⟨"", "A", "", 1, 0, "u"⟩, ⟨"", "B", "", 2, 0, "u"⟩,
       ⟨"", "C", "", 3, 0, "u"⟩, ⟨"", "D", "", 4, 0, "u"⟩]
      ⟨none, none, none⟩ (by decide)).2.2.2.2⟩

/-- C6: when the request channel cannot be resolved, the submission
handler posts nothing, attaches no reaction, leaves the ledger and the
store untouched, and replies to the caller with the error message. -/
theorem C6_channel_unavailable (msgId : Nat) (now : Int)
    (artist nm link mention userStr : String) (ledger : List Request) (st : Store) :
    request artist_roles false msgId now artist nm link mention userStr ledger st =
      some { posts := [], reactions := [], ledger := ledger, store := st,
             reply := "Error: Could not find requests channel." } := rfl

/-- C10: the artist-to-role lookup is dead in the submission path — for
any two role tables (each containing the `"other"` key the code indexes
unconditionally), the handler's entire outcome (posted message, stored
request, ledger, store, ephemeral reply) is identical. -/
theorem C10_role_noninterference (roles1 roles2 : List (String × Nat)) (channelOk : Bool)
    (msgId : Nat) (now : Int) (artist nm link mention userStr : String)
    (ledger : List Request) (st : Store)
    (h1 : (lookupRole roles1 "other").isSome = true)
    (h2 : (lookupRole roles2 "other").isSome = true) :
    request roles1 channelOk msgId now artist nm link mention userStr ledger st =
      request roles2 channelOk msgId now artist nm link mention userStr ledger st := by
  obtain ⟨o1, ho1⟩ := Option.isSome_iff_exists.mp h1
  obtain ⟨o2, ho2⟩ := Option.isSome_iff_exists.mp h2
  unfold request
  rw [ho1, ho2]

/-- C10 witness: the configured table and a table recognising no artist
give identical submission outcomes. -/
theorem C10_role_noninterference_witness :
    request artist_roles true 9 0 "Carti" "Song X" "http" "@u" "u" [] ⟨none, none, none⟩ =
      request [("other", 0)] true 9 0 "Carti" "Song X" "http" "@u" "u" []
        ⟨none, none, none⟩ :=
  C10_role_noninterference artist_roles [("other", 0)] true 9 0 "Carti" "Song X"
    "http" "@u" "u" [] ⟨none, none, none⟩ (by decide) (by decide)

end Bot
